import Mathlib

/-!
Verification development for the `ckanext-search-schema` CKAN extension.

The Python modules `ckanext/search_schema/facades.py`, `adapters.py` and
`cli.py` are shallowly embedded below.  HTTP traffic is modelled by passing
the server's response as an explicit argument and by returning the list of
requests a method issues.  Python exceptions become the `SolrError` sum type
and functions that can raise return `Except SolrError _`.  JSON objects that
the code only reads the `name` / `source` / `dest` keys of are modelled as
association lists from strings to strings.

The repository imports two modules that are not part of the source tree
(`ckanext/search_schema/const.py` and `ckanext/search_schema/exceptions.py`);
the constants and exception classes they provide are modelled from the spec
and marked as such in their doc comments.
-/

set_option autoImplicit false

/-- Errors of the embedded code.  `configError` models `SolrConfigError`,
`adapterError` models `SolrAdapterError`, `apiError` models `SolrApiError`
(all three are declared in the repository's `exceptions.py`, which is not
under `src/`; only the raising sites in `facades.py`/`adapters.py` matter
here).  `requestError` models the plain wrapped
`Exception("Error executing request to {url}: ...")` raised in
`_send_request`, `jsonDecodeError` the error raised by `response.json()` on a
malformed body, and `keyError` / `indexError` the Python `KeyError` /
`IndexError` runtime exceptions. -/
inductive SolrError where
  | configError : String → SolrError
  | adapterError : String → SolrError
  | apiError : String → SolrError
  | requestError : String → Nat → SolrError
  | jsonDecodeError : SolrError
  | keyError : String → SolrError
  | indexError : SolrError
deriving DecidableEq

/-- A JSON object of which the code only inspects string-valued entries
(`name`, `source`, `dest`, ...), modelled as an association list. -/
abbrev SolrRecord : Type := List (String × String)

/-- The schema document returned by Solr's `/schema` endpoint, restricted to
the four group lists the code reads (`schema[key]` accesses). -/
structure SolrSchema where
  fieldTypes : List SolrRecord
  fields : List SolrRecord
  dynamicFields : List SolrRecord
  copyFields : List SolrRecord
deriving DecidableEq

/-- First-match association-list lookup; models Python `dict` read access
(`d[k]` succeeds iff the result is `some`). -/
def lookupStr {α : Type} (l : List (String × α)) (k : String) : Option α :=
  match l with
  | [] => none
  | p :: ps => if p.1 = k then some p.2 else lookupStr ps k

/-- `schema[key]` for the schema document: the four known group keys succeed,
anything else is a Python `KeyError`. -/
def SolrSchema.get (s : SolrSchema) (k : String) : Except SolrError (List SolrRecord) :=
  if k = "fieldTypes" then .ok s.fieldTypes
  else if k = "fields" then .ok s.fields
  else if k = "dynamicFields" then .ok s.dynamicFields
  else if k = "copyFields" then .ok s.copyFields
  else .error (.keyError k)

/-- An HTTP response from the environment: the status code and the parsed
JSON body (`none` models a body that is not well-formed JSON). -/
structure HttpResponse (α : Type) where
  status : Nat
  body : Option α
deriving DecidableEq

/-- The body of a response to the `/schema` endpoint: a JSON object from
which the code extracts the `schema` key. -/
abbrev SchemaBody : Type := List (String × SolrSchema)

/-- The delete-command payload built by `clear_schema`: a `dict` from command
names to lists of records. -/
abbrev Payload : Type := List (String × List SolrRecord)

/-- A request issued by the embedded code (url, HTTP method, JSON payload;
the payload is empty for GET requests). -/
structure HttpRequest where
  url : String
  method : String
  payload : Payload
deriving DecidableEq

/-- The state built by `SolrBaseFacade.__init__` / `SolrBaseAdapter.__init__`. -/
structure Facade where
  solr_url : String
  base_url : String
  collection : String
deriving DecidableEq

/-- Python truthiness test `not x` for an optional string: `None` and `""`
are falsy. -/
def pyFalsy : Option String → Bool
  | none => true
  | some s => s = ""

/-- Python `a or b` for an optional string `a` and fallible fallback `b`. -/
def pyOrStr (a : Option String) (fallback : Except SolrError String) :
    Except SolrError String :=
  match a with
  | some s => if s = "" then fallback else .ok s
  | none => fallback

/-- `l[1]` on a Python list: the second element, or `IndexError`. -/
def listGet1 {α : Type} : List α → Except SolrError α
  | _ :: x :: _ => .ok x
  | _ => .error .indexError

/-- Split a character list at the first occurrence of `c` (`none` when `c`
does not occur). -/
def splitFirst (c : Char) : List Char → Option (List Char × List Char)
  | [] => none
  | a :: as =>
    if a = c then some ([], as)
    else
      match splitFirst c as with
      | none => none
      | some (pre, post) => some (a :: pre, post)

/-- Python `str.split(c)` on a character list. -/
def pySplit (c : Char) : List Char → List (List Char)
  | [] => [[]]
  | a :: as =>
    if a = c then [] :: pySplit c as
    else
      match pySplit c as with
      | [] => [[a]]
      | s :: ss => (a :: s) :: ss

/-- Drop leading `/` characters. -/
def dropSlashes (l : List Char) : List Char :=
  l.dropWhile (fun a => a = '/')

/-- Python `str.strip("/")` on a character list: drop leading and trailing
slashes. -/
def pyStripSlash (l : List Char) : List Char :=
  ((dropSlashes l).reverse.dropWhile (fun a => a = '/')).reverse

/-- Result of `urllib.parse.urlparse` restricted to the components the code
reads. -/
structure ParseResult where
  scheme : String
  netloc : String
  path : String
deriving DecidableEq

/-- `urllib.parse.urlparse`, modelled for URLs without query, fragment or
params components (the configured Solr URLs have none): the scheme is
everything before the first `:`, a following `//` introduces the netloc
which extends to the next `/`, and the remainder is the path. -/
def urlparse (url : String) : ParseResult :=
  match splitFirst ':' url.toList with
  | none => ⟨"", "", url⟩
  | some (sch, rest) =>
    match rest with
    | '/' :: '/' :: rest2 =>
      let netloc := rest2.takeWhile (fun a => a ≠ '/')
      let path := rest2.dropWhile (fun a => a ≠ '/')
      ⟨String.mk sch, String.mk netloc, String.mk path⟩
    | _ => ⟨String.mk sch, "", String.mk rest⟩

/-- `urllib.parse.urlunparse` on a six-component list, for empty params,
query and fragment (the only call in the source passes empty strings for
everything but scheme and netloc). -/
def urlunparse6 (scheme netloc url : String) : String :=
  let url1 :=
    if netloc ≠ "" ∨ (url.toList.take 2 = ['/', '/']) then
      let u2 := if url ≠ "" ∧ url.toList.take 1 ≠ ['/'] then "/" ++ url else url
      "//" ++ netloc ++ u2
    else url
  if scheme ≠ "" then scheme ++ ":" ++ url1 else url1

/-- Modelled from the spec: `const.py` is not under `src/`.  Per the spec's
data model each schema group "maps to a fixed Solr schema JSON key
(`fieldTypes`, `fields`, `dynamicFields`, `copyFields`)"; `_get_field` is
called with these keys, so `const.SOLR_F_TYPE` is the field-type key. -/
def SOLR_F_TYPE : String := "fieldTypes"

/-- Modelled from the spec: the schema JSON key for the field group
(`const.SOLR_FIELD`, `const.py` not under `src/`). -/
def SOLR_FIELD : String := "fields"

/-- Modelled from the spec: the schema JSON key for the copy-field group
(`const.SOLR_COPY_FIELD`, `const.py` not under `src/`). -/
def SOLR_COPY_FIELD : String := "copyFields"

/-- Modelled from the spec: the schema JSON key for the dynamic-field group
(`const.SOLR_DYN_FIELD`, `const.py` not under `src/`). -/
def SOLR_DYN_FIELD : String := "dynamicFields"

/-- Modelled from the spec: `const.SOLR_GROUP_MAPPING` (`const.py` not under
`src/`) maps each recognized group name to its Solr schema JSON key; the
delete command for a group is `delete-<group>`, so the group names are
`field-type`, `field`, `dynamic-field`, `copy-field`. -/
def SOLR_GROUP_MAPPING : List (String × String) :=
  [("field-type", "fieldTypes"), ("field", "fields"),
   ("dynamic-field", "dynamicFields"), ("copy-field", "copyFields")]

/-- `SolrFacade._send_request`: perform the request (the environment's
response is the argument), `raise_for_status` (an `HTTPError` for a 4xx or
5xx status is caught and re-raised as the wrapped generic exception), then
parse the body with `response.json()`, whose decode error is raised outside
the `try` block and therefore stays a JSON decode error. -/
def sendRequest {α : Type} (url : String) (resp : HttpResponse α) :
    Except SolrError α :=
  if 400 ≤ resp.status ∧ resp.status < 600 then
    .error (.requestError url resp.status)
  else
    match resp.body with
    | none => .error .jsonDecodeError
    | some b => .ok b

/-- `SolrBaseFacade._get_base_url_from_config`. -/
def getBaseUrlFromConfig (solr_url : String) : String :=
  let result := urlparse solr_url
  urlunparse6 result.scheme result.netloc ""

/-- `SolrBaseFacade._get_collection_from_config`
(and the identical `SolrBaseAdapter` method, which raises
`SolrAdapterError` instead of `SolrConfigError`; `mkErr` selects the
exception class).  `result.path.strip("/").split("/")[1]` can raise
`IndexError` before the emptiness check is reached. -/
def getCollectionFromConfig (mkErr : String → SolrError) (solr_url : String) :
    Except SolrError String :=
  let result := urlparse solr_url
  match listGet1 (pySplit '/' (pyStripSlash result.path.toList)) with
  | .error e => .error e
  | .ok collChars =>
    let collection := String.mk collChars
    if collection = "" then .error (mkErr "The solr_url doesn't contain collection")
    else .ok collection

/-- `SolrBaseFacade.__init__` (and the identical `SolrBaseAdapter.__init__`;
`mkErr` selects the exception class raised).  `cfg` is
`tk.config.get(const.SOLR_URL)`, `bu`/`c` the optional constructor
arguments. -/
def facadeInit (mkErr : String → SolrError) (cfg bu c : Option String) :
    Except SolrError Facade :=
  if pyFalsy cfg then .error (mkErr "The solr_url is missing from configuration")
  else
    let u := cfg.getD ""
    match pyOrStr bu (.ok (getBaseUrlFromConfig u)) with
    | .error e => .error e
    | .ok b =>
      match pyOrStr c (getCollectionFromConfig mkErr u) with
      | .error e => .error e
      | .ok col => .ok ⟨u, b, col⟩

/-- `SolrBaseFacade.__init__` with the `SolrConfigError` exception class. -/
def SolrBaseFacade.init (cfg bu c : Option String) : Except SolrError Facade :=
  facadeInit .configError cfg bu c

/-- `SolrBaseFacade._get_url`. -/
def getUrl (f : Facade) (endpoint : String) : String :=
  f.base_url ++ "/solr/" ++ f.collection ++ "/" ++ endpoint

/-- `SolrBaseFacade.get_full_schema`: send a GET to the schema endpoint and
extract the response's `schema` key (a missing key is a Python
`KeyError`). -/
def SolrBaseFacade.get_full_schema (f : Facade)
    (resp : HttpResponse SchemaBody) : Except SolrError SolrSchema :=
  match sendRequest (getUrl f "schema") resp with
  | .error e => .error e
  | .ok body =>
    match lookupStr body "schema" with
    | some s => .ok s
    | none => .error (.keyError "schema")

/-- The loop of `SolrBaseFacade._get_field`: walk the group list, read each
record's `name` key (`KeyError` when absent), return the singleton of the
first match, raise `SolrApiError` when the list is exhausted. -/
def getFieldAux (group fieldName : String) :
    List SolrRecord → Except SolrError (List SolrRecord)
  | [] => .error (.apiError (group ++ " `" ++ fieldName ++ "` doesn't exist"))
  | r :: rs =>
    match lookupStr r "name" with
    | none => .error (.keyError "name")
    | some n => if n = fieldName then .ok [r] else getFieldAux group fieldName rs

/-- `SolrBaseFacade._get_field`: fetch the full schema, return the whole
group list when the name is falsy (`None` or `""`), otherwise run the
search loop. -/
def SolrBaseFacade.getField (f : Facade) (resp : HttpResponse SchemaBody)
    (group : String) (field_name : Option String) :
    Except SolrError (List SolrRecord) :=
  match SolrBaseFacade.get_full_schema f resp with
  | .error e => .error e
  | .ok schema =>
    match schema.get group with
    | .error e => .error e
    | .ok l =>
      if pyFalsy field_name then .ok l
      else getFieldAux group (field_name.getD "") l

/-- `SolrBaseFacade.get_field_types`. -/
def SolrBaseFacade.get_field_types (f : Facade) (resp : HttpResponse SchemaBody)
    (field_type : Option String) : Except SolrError (List SolrRecord) :=
  SolrBaseFacade.getField f resp SOLR_F_TYPE field_type

/-- `SolrBaseFacade.get_fields`. -/
def SolrBaseFacade.get_fields (f : Facade) (resp : HttpResponse SchemaBody)
    (field_name : Option String) : Except SolrError (List SolrRecord) :=
  SolrBaseFacade.getField f resp SOLR_FIELD field_name

/-- `SolrBaseFacade.get_copy_fields`. -/
def SolrBaseFacade.get_copy_fields (f : Facade) (resp : HttpResponse SchemaBody)
    (field_name : Option String) : Except SolrError (List SolrRecord) :=
  SolrBaseFacade.getField f resp SOLR_COPY_FIELD field_name

/-- `SolrBaseFacade.get_dynamic_fields`. -/
def SolrBaseFacade.get_dynamic_fields (f : Facade) (resp : HttpResponse SchemaBody)
    (field_name : Option String) : Except SolrError (List SolrRecord) :=
  SolrBaseFacade.getField f resp SOLR_DYN_FIELD field_name

/-- `Solr5Facade.clear_schema` is `pass`: no request, no error, state
untouched. -/
def Solr5Facade.clear_schema (f : Facade) (_groups : List String) :
    Except SolrError (Facade × List HttpRequest) :=
  .ok (f, [])

/-- `data.setdefault(command, [])`. -/
def dictSetdefault (d : Payload) (k : String) : Payload :=
  match lookupStr d k with
  | some _ => d
  | none => d ++ [(k, [])]

/-- `data[command].extend(vs)`. -/
def dictExtend (d : Payload) (k : String) (vs : List SolrRecord) : Payload :=
  d.map (fun p => if p.1 = k then (p.1, p.2 ++ vs) else p)

/-- The list comprehension in `Solr8Facade.clear_schema`:
`[{"name": field["name"]} for field in members if field["name"] not in fixed]`
(a record without a `name` key raises `KeyError`). -/
def buildNameRecords (fixed : List String) :
    List SolrRecord → Except SolrError (List SolrRecord)
  | [] => .ok []
  | r :: rs =>
    match lookupStr r "name" with
    | none => .error (.keyError "name")
    | some n =>
      match buildNameRecords fixed rs with
      | .error e => .error e
      | .ok rest =>
        if n ∈ fixed then .ok rest else .ok ([("name", n)] :: rest)

/-- One iteration of the `for group in groups` loop of
`Solr8Facade.clear_schema`.  `fixedFields` models `const.SOLR_FIXED_FIELDS`
(modelled from the spec, `const.py` not under `src/`: a per-group set of
protected names, `.get(group, [])` semantics). -/
def clearStep (fixedFields : String → List String) (schema : SolrSchema)
    (data : Payload) (group : String) : Except SolrError Payload :=
  match lookupStr SOLR_GROUP_MAPPING group with
  | none => .error (.keyError group)
  | some key =>
    let command := "delete-" ++ group
    let data1 := dictSetdefault data command
    match schema.get key with
    | .error e => .error e
    | .ok members =>
      if members.isEmpty then .ok data1
      else if group = "copy-field" then .ok (dictExtend data1 command members)
      else
        match buildNameRecords (fixedFields group) members with
        | .error e => .error e
        | .ok fields => .ok (dictExtend data1 command fields)

/-- `Solr8Facade.clear_schema`: fetch the full schema (one GET), build the
delete commands for every requested group, then issue a single POST with the
combined payload.  Returns the facade state and the requests issued. -/
def Solr8Facade.clear_schema (f : Facade) (fixedFields : String → List String)
    (groups : List String) (resp : HttpResponse SchemaBody) :
    Except SolrError (Facade × List HttpRequest) :=
  match SolrBaseFacade.get_full_schema f resp with
  | .error e => .error e
  | .ok schema =>
    match groups.foldlM (clearStep fixedFields schema) [] with
    | .error e => .error e
    | .ok data =>
      .ok (f, [⟨getUrl f "schema", "GET", []⟩, ⟨getUrl f "schema", "post", data⟩])

/-- A JSON document printed by a CLI command (kept structured instead of
rendered to a string). -/
inductive JsonDoc where
  | record : SolrRecord → JsonDoc
  | records : List SolrRecord → JsonDoc
  | schemaDoc : SolrSchema → JsonDoc
deriving DecidableEq

/-- The observable outcome of a CLI command: normal colorized JSON output
(`_echo_colorized`), the red error line printed by
`click.secho(e, fg="red")`, or an uncaught exception escaping as a stack
trace. -/
inductive CliOutcome where
  | echo : JsonDoc → CliOutcome
  | echoError : String → CliOutcome
  | crash : SolrError → CliOutcome
deriving DecidableEq

/-- The loop of `Solr8Adapter.get_field_types`: walk the `fieldTypes` list
reading each record's `name` (`KeyError` when absent), return the first
matching record itself (not a singleton list), else raise
`SolrApiError("field_type {name} doesn't exist")`. -/
def adapterFindFieldType (field_type : String) :
    List SolrRecord → Except SolrError JsonDoc
  | [] => .error (.apiError ("field_type " ++ field_type ++ " doesn't exist"))
  | r :: rs =>
    match lookupStr r "name" with
    | none => .error (.keyError "name")
    | some n =>
      if n = field_type then .ok (.record r) else adapterFindFieldType field_type rs

/-- `Solr8Adapter.get_field_types` (`adapters.py`): fetch the schema
response, return the whole `fieldTypes` list for a falsy name, otherwise
run the search loop. -/
def Solr8Adapter.get_field_types (a : Facade) (resp : HttpResponse SchemaBody)
    (field_type : Option String) : Except SolrError JsonDoc :=
  match sendRequest (getUrl a "schema") resp with
  | .error e => .error e
  | .ok body =>
    match lookupStr body "schema" with
    | none => .error (.keyError "schema")
    | some schema =>
      if pyFalsy field_type then .ok (.records schema.fieldTypes)
      else adapterFindFieldType (field_type.getD "") schema.fieldTypes

/-- `Solr8Adapter.get_field` (`adapters.py`): an unimplemented stub that
ignores its argument and returns the empty JSON object without issuing any
request. -/
def Solr8Adapter.get_field (_field_name : String) : SolrRecord := []

/-- `adapters.connect`: construct a `Solr8Adapter` from the configured URL
(`SolrBaseAdapter.__init__` with the `SolrAdapterError` exception class and
no explicit arguments). -/
def Adapters.connect (cfg : Option String) : Except SolrError Facade :=
  facadeInit .adapterError cfg none none

/-- The names of the click commands `cli.py` registers on the
`search_schema` group: the functions `definition`, `field_types` (click
exposes it as `field-types`) and `field`.  No copy-field or dynamic-field
command exists. -/
def cliCommandNames : List String := ["definition", "field-types", "field"]

/-- The `field_types` CLI command: connect, run the lookup inside
`try/except SolrApiError` (only `SolrApiError` is printed via
`click.secho(..., fg="red")`; any other exception propagates), then echo the
JSON. -/
def cliFieldTypes (cfg : Option String) (resp : HttpResponse SchemaBody)
    (field_type : Option String) : CliOutcome :=
  match Adapters.connect cfg with
  | .error e => .crash e
  | .ok conn =>
    match Solr8Adapter.get_field_types conn resp field_type with
    | .ok doc => .echo doc
    | .error (.apiError m) => .echoError m
    | .error e => .crash e

/-- The `field` CLI command: connect and echo
`json.dumps(conn.get_field(field_name))` with no `try/except` around the
lookup. -/
def cliField (cfg : Option String) (field_name : String) : CliOutcome :=
  match Adapters.connect cfg with
  | .error e => .crash e
  | .ok _conn => .echo (.record (Solr8Adapter.get_field field_name))

/-- `r["name"]` is defined for every record of the list (spec data model:
field types, fields and dynamic fields always carry a `name`; copy fields
do not). -/
def allNamed (l : List SolrRecord) : Bool :=
  l.all (fun r => (lookupStr r "name").isSome)

/-- Holds of results that are a raised `SolrApiError`. -/
def isApiErrorResult {α : Type} : Except SolrError α → Bool
  | .error (.apiError _) => true
  | _ => false

/-- Holds of results that are a raised `SolrConfigError`. -/
def isConfigErrorResult {α : Type} : Except SolrError α → Bool
  | .error (.configError _) => true
  | _ => false

/-- Follows the spec's words for `clear_schema`: the delete command for a
group lists "all current members' names (or full copy-field records ...),
excluding any name present in FixedFields for that group". -/
def specDeleteCommandEntries (fixed : List String) (group : String)
    (members : List SolrRecord) : List SolrRecord :=
  if group = "copy-field" then members
  else
    (members.filter (fun r => ¬ (lookupStr r "name").getD "" ∈ fixed)).map
      (fun r => [("name", (lookupStr r "name").getD "")])

deriving instance DecidableEq for Except

/-- Holds of a raised `SolrApiError`. -/
def SolrError.isApi : SolrError → Bool
  | .apiError _ => true
  | _ => false

/-- Fixture facade: the state `connect()` builds from the usual CKAN Solr
URL. -/
def F0 : Facade :=
  ⟨"http://localhost:8983/solr/ckan", "http://localhost:8983", "ckan"⟩

/-- Fixture configuration value for the Solr URL option. -/
def CFG0 : Option String := some "http://localhost:8983/solr/ckan"

/-- Fixture schema document: one field type, two fields, no dynamic fields,
one copy field ({source, dest}, no name — the shape `types.py` declares for
`Solr8CopyField`). -/
def S0 : SolrSchema :=
  ⟨[[("name", "text_general"), ("class", "solr.TextField")]],
   [[("name", "id"), ("type", "string")], [("name", "title"), ("type", "text_general")]],
   [],
   [[("source", "title"), ("dest", "text")]]⟩

/-- Fixture successful response of the `/schema` endpoint. -/
def R0 : HttpResponse SchemaBody := ⟨200, some [("schema", S0)]⟩

/-- Fixture server-error response of the `/schema` endpoint. -/
def R500 : HttpResponse SchemaBody := ⟨500, some [("schema", S0)]⟩

/-- C7: for every input groups value, the Solr-5 `clear_schema` is a no-op:
it issues no HTTP request, raises no error, and leaves the facade state
unchanged. -/
theorem C7_solr5_clear_noop (f : Facade) (groups : List String) :
    Solr5Facade.clear_schema f groups = .ok (f, []) := rfl

/-- C9 (code evaluated at the failing input): the fixture schema contains a
field named `title`, yet the CLI `field title` command prints the empty
JSON object `{}` produced by the `Solr8Adapter.get_field` stub, which is not
the field's definition. -/
theorem C9_cli_field_stub :
    (∃ r ∈ S0.fields, lookupStr r "name" = some "title") ∧
    cliField CFG0 "title" = .echo (.record []) ∧
    (∀ r ∈ S0.fields, lookupStr r "name" = some "title" →
      CliOutcome.echo (.record r) ≠ CliOutcome.echo (.record [])) := by
  refine ⟨⟨[("name", "title"), ("type", "text_general")], by decide, by decide⟩, by decide, by decide⟩

/-- `get_full_schema` never raises `SolrApiError`: its failures are the
wrapped request error, the JSON decode error or a `KeyError`. -/
theorem get_full_schema_not_api (f : Facade) (resp : HttpResponse SchemaBody) :
    isApiErrorResult (SolrBaseFacade.get_full_schema f resp) = false := by
  by_cases h : 400 ≤ resp.status ∧ resp.status < 600
  · simp [SolrBaseFacade.get_full_schema, sendRequest, h, isApiErrorResult]
  · cases hb : resp.body with
    | none => simp [SolrBaseFacade.get_full_schema, sendRequest, h, hb, isApiErrorResult]
    | some b =>
      cases hl : lookupStr b "schema" <;>
        simp [SolrBaseFacade.get_full_schema, sendRequest, h, hb, hl, isApiErrorResult]

/-- With a falsy name, `_get_field` never reaches the search loop. -/
theorem getField_falsy (f : Facade) (resp : HttpResponse SchemaBody)
    (group : String) (name : Option String) (h : pyFalsy name = true) :
    SolrBaseFacade.getField f resp group name =
      match SolrBaseFacade.get_full_schema f resp with
      | .error e => .error e
      | .ok schema => schema.get group := by
  cases hf : SolrBaseFacade.get_full_schema f resp with
  | error e => simp [SolrBaseFacade.getField, hf]
  | ok schema =>
    cases hg : schema.get group with
    | error e => simp [SolrBaseFacade.getField, hf, hg]
    | ok l => simp [SolrBaseFacade.getField, hf, hg, h]

/-- On a raised error the `isApiErrorResult` test only inspects the error
value. -/
theorem isApiErrorResult_error {α : Type} (e : SolrError) :
    isApiErrorResult (.error e : Except SolrError α) = e.isApi := by
  cases e <;> rfl

/-- A falsy-name `_get_field` call never raises `SolrApiError`. -/
theorem getField_falsy_not_api (f : Facade) (resp : HttpResponse SchemaBody)
    (group : String) (name : Option String) (h : pyFalsy name = true) :
    isApiErrorResult (SolrBaseFacade.getField f resp group name) = false := by
  rw [getField_falsy f resp group name h]
  cases hf : SolrBaseFacade.get_full_schema f resp with
  | error e =>
    have h2 := get_full_schema_not_api f resp
    rw [hf, isApiErrorResult_error] at h2
    simpa [isApiErrorResult_error] using h2
  | ok schema =>
    simp only []
    unfold SolrSchema.get
    split <;> try rfl
    split <;> try rfl
    split <;> try rfl
    split <;> rfl

/-- C10: for every group, calling the four lookups with the empty string as
the name behaves exactly like calling them with no name: same result, the
whole group list on a successful fetch, and never the not-found
`SolrApiError`. -/
theorem C10_empty_name_lookup (f : Facade) (resp : HttpResponse SchemaBody) :
    (SolrBaseFacade.get_field_types f resp (some "") = SolrBaseFacade.get_field_types f resp none ∧
     SolrBaseFacade.get_fields f resp (some "") = SolrBaseFacade.get_fields f resp none ∧
     SolrBaseFacade.get_copy_fields f resp (some "") = SolrBaseFacade.get_copy_fields f resp none ∧
     SolrBaseFacade.get_dynamic_fields f resp (some "") = SolrBaseFacade.get_dynamic_fields f resp none) ∧
    (isApiErrorResult (SolrBaseFacade.get_field_types f resp (some "")) = false ∧
     isApiErrorResult (SolrBaseFacade.get_fields f resp (some "")) = false ∧
     isApiErrorResult (SolrBaseFacade.get_copy_fields f resp (some "")) = false ∧
     isApiErrorResult (SolrBaseFacade.get_dynamic_fields f resp (some "")) = false) ∧
    (∀ s : SolrSchema, SolrBaseFacade.get_full_schema f resp = .ok s →
       SolrBaseFacade.get_field_types f resp (some "") = .ok s.fieldTypes ∧
       SolrBaseFacade.get_fields f resp (some "") = .ok s.fields ∧
       SolrBaseFacade.get_copy_fields f resp (some "") = .ok s.copyFields ∧
       SolrBaseFacade.get_dynamic_fields f resp (some "") = .ok s.dynamicFields) := by
  have hempty : pyFalsy (some "") = true := rfl
  have hnone : pyFalsy (none : Option String) = true := rfl
  unfold SolrBaseFacade.get_field_types SolrBaseFacade.get_fields
    SolrBaseFacade.get_copy_fields SolrBaseFacade.get_dynamic_fields
  refine ⟨⟨?_, ?_, ?_, ?_⟩, ⟨?_, ?_, ?_, ?_⟩, ?_⟩
  · rw [getField_falsy _ _ _ _ hempty, getField_falsy _ _ _ _ hnone]
  · rw [getField_falsy _ _ _ _ hempty, getField_falsy _ _ _ _ hnone]
  · rw [getField_falsy _ _ _ _ hempty, getField_falsy _ _ _ _ hnone]
  · rw [getField_falsy _ _ _ _ hempty, getField_falsy _ _ _ _ hnone]
  · exact getField_falsy_not_api f resp _ _ hempty
  · exact getField_falsy_not_api f resp _ _ hempty
  · exact getField_falsy_not_api f resp _ _ hempty
  · exact getField_falsy_not_api f resp _ _ hempty
  · intro s hs
    refine ⟨?_, ?_, ?_, ?_⟩ <;>
      · rw [getField_falsy _ _ _ _ hempty, hs]
        rfl

/-- C10 witness: the empty-string lookups on the fixture response. -/
theorem C10_empty_name_lookup_witness :
    SolrBaseFacade.get_field_types F0 R0 (some "") = .ok S0.fieldTypes ∧
    SolrBaseFacade.get_copy_fields F0 R0 (some "") = .ok S0.copyFields := by
  have h := (C10_empty_name_lookup F0 R0).2.2 S0 (by decide)
  exact ⟨h.1, h.2.2.1⟩

/-- C5 (amended): `get_full_schema` fails with the wrapped generic request
error — not `SolrApiError` — when the HTTP status is 4xx/5xx (the statuses
`raise_for_status` reports), fails with the JSON decode error when the body
of a non-error response is not well-formed JSON, and on success returns the
response's `schema` document unchanged. -/
theorem C5_get_full_schema (f : Facade) (resp : HttpResponse SchemaBody) :
    (400 ≤ resp.status ∧ resp.status < 600 →
       SolrBaseFacade.get_full_schema f resp =
         .error (.requestError (getUrl f "schema") resp.status)) ∧
    (¬(400 ≤ resp.status ∧ resp.status < 600) → resp.body = none →
       SolrBaseFacade.get_full_schema f resp = .error .jsonDecodeError) ∧
    (∀ (body : SchemaBody) (s : SolrSchema),
       ¬(400 ≤ resp.status ∧ resp.status < 600) → resp.body = some body →
       lookupStr body "schema" = some s →
       SolrBaseFacade.get_full_schema f resp = .ok s) := by
  refine ⟨?_, ?_, ?_⟩
  · intro h
    simp [SolrBaseFacade.get_full_schema, sendRequest, h]
  · intro h hb
    simp [SolrBaseFacade.get_full_schema, sendRequest, h, hb]
  · intro body s h hb hl
    simp [SolrBaseFacade.get_full_schema, sendRequest, h, hb, hl]

/-- C5 counterexample: on a 500 response the raised error is the wrapped
generic request error, not a `SolrApiError` as the claim states. -/
theorem C5_get_full_schema_cex :
    SolrBaseFacade.get_full_schema F0 R500 =
      .error (.requestError (getUrl F0 "schema") 500) ∧
    isApiErrorResult (SolrBaseFacade.get_full_schema F0 R500) = false := by
  refine ⟨by decide, by decide⟩

/-- C5 witness: the success branch of the amended theorem on the fixture
response returns the fixture schema unchanged. -/
theorem C5_get_full_schema_witness :
    SolrBaseFacade.get_full_schema F0 R0 = .ok S0 := by
  have h := C5_get_full_schema F0 R0
  exact h.2.2 [("schema", S0)] S0 (by decide) rfl (by decide)

/-- When every record is named and one matches, the `_get_field` loop
returns the singleton of a matching record from the list. -/
theorem getFieldAux_found (group name : String) (l : List SolrRecord)
    (hnames : allNamed l = true) (hex : ∃ r ∈ l, lookupStr r "name" = some name) :
    ∃ r ∈ l, lookupStr r "name" = some name ∧
      getFieldAux group name l = .ok [r] := by
  induction l with
  | nil => simp at hex
  | cons r rs ih =>
    have hr : (lookupStr r "name").isSome := by
      have := hnames
      simp [allNamed] at this
      exact this.1
    cases hn : lookupStr r "name" with
    | none => rw [hn] at hr; simp at hr
    | some n =>
      by_cases heq : n = name
      · exact ⟨r, by simp, by rw [heq] at hn; exact hn, by simp [getFieldAux, hn, heq]⟩
      · have hrs : allNamed rs = true := by
          simp [allNamed] at hnames ⊢
          exact hnames.2
        have hex2 : ∃ x ∈ rs, lookupStr x "name" = some name := by
          rcases hex with ⟨x, hx, hlx⟩
          rcases List.mem_cons.mp hx with rfl | hx2
          · rw [hn] at hlx
            exact absurd (Option.some.inj hlx) heq
          · exact ⟨x, hx2, hlx⟩
        rcases ih hrs hex2 with ⟨x, hx, hlx, hres⟩
        exact ⟨x, List.mem_cons_of_mem _ hx, hlx, by simp [getFieldAux, hn, heq, hres]⟩

/-- When every record is named and none matches, the `_get_field` loop
raises the not-found `SolrApiError` naming the group and the identifier. -/
theorem getFieldAux_notfound (group name : String) (l : List SolrRecord)
    (hnames : allNamed l = true) (hnone : ∀ r ∈ l, lookupStr r "name" ≠ some name) :
    getFieldAux group name l =
      .error (.apiError (group ++ " `" ++ name ++ "` doesn't exist")) := by
  induction l with
  | nil => rfl
  | cons r rs ih =>
    have hr : (lookupStr r "name").isSome := by
      simp [allNamed] at hnames
      exact hnames.1
    cases hn : lookupStr r "name" with
    | none => rw [hn] at hr; simp at hr
    | some n =>
      have hne : n ≠ name := by
        intro h
        exact hnone r (by simp) (by rw [hn, h])
      have hrs : allNamed rs = true := by
        simp [allNamed] at hnames ⊢
        exact hnames.2
      have hnone2 : ∀ x ∈ rs, lookupStr x "name" ≠ some name := fun x hx =>
        hnone x (List.mem_cons_of_mem _ hx)
      simp [getFieldAux, hn, hne, ih hrs hnone2]

/-- The three behaviours of `_get_field` for one group list, given a
successful fetch, a valid group key and records that all carry a `name`. -/
theorem getField_cases (f : Facade) (resp : HttpResponse SchemaBody)
    (s : SolrSchema) (group : String) (l : List SolrRecord) (name : String)
    (hfetch : SolrBaseFacade.get_full_schema f resp = .ok s)
    (hgroup : s.get group = .ok l) (hname : name ≠ "")
    (hnames : allNamed l = true) :
    ((∃ r ∈ l, lookupStr r "name" = some name) →
       ∃ r ∈ l, lookupStr r "name" = some name ∧
         SolrBaseFacade.getField f resp group (some name) = .ok [r]) ∧
    ((∀ r ∈ l, lookupStr r "name" ≠ some name) →
       SolrBaseFacade.getField f resp group (some name) =
         .error (.apiError (group ++ " `" ++ name ++ "` doesn't exist"))) ∧
    SolrBaseFacade.getField f resp group none = .ok l := by
  have hfalsy : pyFalsy (some name) = false := by simp [pyFalsy, hname]
  have heq : SolrBaseFacade.getField f resp group (some name) =
      getFieldAux group name l := by
    simp [SolrBaseFacade.getField, hfetch, hgroup, hfalsy]
  refine ⟨?_, ?_, ?_⟩
  · intro hex
    rcases getFieldAux_found group name l hnames hex with ⟨r, hr, hlr, hres⟩
    exact ⟨r, hr, hlr, by rw [heq, hres]⟩
  · intro hnone
    rw [heq]
    exact getFieldAux_notfound group name l hnames hnone
  · rw [getField_falsy f resp group none rfl, hfetch]
    exact hgroup

/-- C1 (amended): for the named lookups, provided every record of the
consulted group carries a `name` key: a matching record yields exactly one
matching record, no match yields the not-found `SolrApiError` naming the
group and the identifier, and no name yields the whole group list.  (When a
record without a `name` key — the shape of every copy-field record — is
reached first, the lookup instead raises a `KeyError`; see the
counterexample.) -/
theorem C1_named_lookup (f : Facade) (resp : HttpResponse SchemaBody)
    (s : SolrSchema) (name : String)
    (hfetch : SolrBaseFacade.get_full_schema f resp = .ok s)
    (hname : name ≠ "") :
    (allNamed s.fieldTypes = true →
       ((∃ r ∈ s.fieldTypes, lookupStr r "name" = some name) →
          ∃ r ∈ s.fieldTypes, lookupStr r "name" = some name ∧
            SolrBaseFacade.get_field_types f resp (some name) = .ok [r]) ∧
       ((∀ r ∈ s.fieldTypes, lookupStr r "name" ≠ some name) →
          SolrBaseFacade.get_field_types f resp (some name) =
            .error (.apiError (SOLR_F_TYPE ++ " `" ++ name ++ "` doesn't exist"))) ∧
       SolrBaseFacade.get_field_types f resp none = .ok s.fieldTypes) ∧
    (allNamed s.fields = true →
       ((∃ r ∈ s.fields, lookupStr r "name" = some name) →
          ∃ r ∈ s.fields, lookupStr r "name" = some name ∧
            SolrBaseFacade.get_fields f resp (some name) = .ok [r]) ∧
       ((∀ r ∈ s.fields, lookupStr r "name" ≠ some name) →
          SolrBaseFacade.get_fields f resp (some name) =
            .error (.apiError (SOLR_FIELD ++ " `" ++ name ++ "` doesn't exist"))) ∧
       SolrBaseFacade.get_fields f resp none = .ok s.fields) ∧
    (allNamed s.copyFields = true →
       ((∃ r ∈ s.copyFields, lookupStr r "name" = some name) →
          ∃ r ∈ s.copyFields, lookupStr r "name" = some name ∧
            SolrBaseFacade.get_copy_fields f resp (some name) = .ok [r]) ∧
       ((∀ r ∈ s.copyFields, lookupStr r "name" ≠ some name) →
          SolrBaseFacade.get_copy_fields f resp (some name) =
            .error (.apiError (SOLR_COPY_FIELD ++ " `" ++ name ++ "` doesn't exist"))) ∧
       SolrBaseFacade.get_copy_fields f resp none = .ok s.copyFields) ∧
    (allNamed s.dynamicFields = true →
       ((∃ r ∈ s.dynamicFields, lookupStr r "name" = some name) →
          ∃ r ∈ s.dynamicFields, lookupStr r "name" = some name ∧
            SolrBaseFacade.get_dynamic_fields f resp (some name) = .ok [r]) ∧
       ((∀ r ∈ s.dynamicFields, lookupStr r "name" ≠ some name) →
          SolrBaseFacade.get_dynamic_fields f resp (some name) =
            .error (.apiError (SOLR_DYN_FIELD ++ " `" ++ name ++ "` doesn't exist"))) ∧
       SolrBaseFacade.get_dynamic_fields f resp none = .ok s.dynamicFields) := by
  refine ⟨?_, ?_, ?_, ?_⟩
  · intro hnames
    exact getField_cases f resp s SOLR_F_TYPE s.fieldTypes name hfetch rfl hname hnames
  · intro hnames
    exact getField_cases f resp s SOLR_FIELD s.fields name hfetch rfl hname hnames
  · intro hnames
    exact getField_cases f resp s SOLR_COPY_FIELD s.copyFields name hfetch rfl hname hnames
  · intro hnames
    exact getField_cases f resp s SOLR_DYN_FIELD s.dynamicFields name hfetch rfl hname hnames

/-- C1 witness: on the fixture schema, looking up the absent field type
`absent` raises the not-found `SolrApiError`. -/
theorem C1_named_lookup_witness :
    SolrBaseFacade.get_field_types F0 R0 (some "absent") =
      .error (.apiError (SOLR_F_TYPE ++ " `" ++ "absent" ++ "` doesn't exist")) := by
  have h := C1_named_lookup F0 R0 S0 "absent" (by decide) (by decide)
  exact (h.1 (by decide)).2.1 (by decide)

/-- C1 counterexample: the fixture's copy-field group has no record named
`title` (its only record has just `source`/`dest`), so by the claim the
lookup should raise the not-found `SolrApiError`; the code instead raises a
`KeyError` when it reads the missing `name` key. -/
theorem C1_named_lookup_cex :
    SolrBaseFacade.get_full_schema F0 R0 = .ok S0 ∧
    (∀ r ∈ S0.copyFields, lookupStr r "name" ≠ some "title") ∧
    SolrBaseFacade.get_copy_fields F0 R0 (some "title") = .error (.keyError "name") ∧
    isApiErrorResult (SolrBaseFacade.get_copy_fields F0 R0 (some "title")) = false := by
  exact ⟨by decide, by decide, by decide, by decide⟩

/-- C8 (amended): the CLI exposes only `definition`, `field-types` and
`field`.  Of these, only the `field-types` lookup catches `SolrApiError` at
the CLI boundary and prints it as a colored message (any other exception
still propagates); the `field` command has no handler at all, but its
Solr-8 lookup is a stub that always returns the empty object and can never
raise.  No copy-field or dynamic-field lookup can be issued through the
CLI. -/
theorem C8_cli_error_handling :
    cliCommandNames = ["definition", "field-types", "field"] ∧
    (∀ (cfg : Option String) (resp : HttpResponse SchemaBody)
       (ft : Option String) (conn : Facade) (m : String),
       Adapters.connect cfg = .ok conn →
       Solr8Adapter.get_field_types conn resp ft = .error (.apiError m) →
       cliFieldTypes cfg resp ft = .echoError m) ∧
    (∀ (cfg : Option String) (resp : HttpResponse SchemaBody)
       (ft : Option String) (conn : Facade) (e : SolrError),
       Adapters.connect cfg = .ok conn →
       Solr8Adapter.get_field_types conn resp ft = .error e →
       e.isApi = false →
       cliFieldTypes cfg resp ft = .crash e) ∧
    (∀ (cfg : Option String) (conn : Facade) (name : String),
       Adapters.connect cfg = .ok conn →
       cliField cfg name = .echo (.record (Solr8Adapter.get_field name))) := by
  refine ⟨rfl, ?_, ?_, ?_⟩
  · intro cfg resp ft conn m hc hl
    simp [cliFieldTypes, hc, hl]
  · intro cfg resp ft conn e hc hl he
    cases e <;> simp_all [cliFieldTypes, SolrError.isApi]
  · intro cfg conn name hc
    simp [cliField, hc]

/-- C8 witness: on the fixture configuration and response, the `field-types`
command turns the not-found `SolrApiError` for `absent` into the red error
line. -/
theorem C8_cli_error_handling_witness :
    cliFieldTypes CFG0 R0 (some "absent") =
      .echoError ("field_type " ++ "absent" ++ " doesn't exist") := by
  have h := C8_cli_error_handling
  exact h.2.1 CFG0 R0 (some "absent") F0 _ (by decide) (by decide)

/-- C8 counterexample: no copy-field or dynamic-field named lookup can be
issued through the CLI (no such command exists), and the `field` command
surfaces no error at all for an absent name — it prints the stub's empty
object instead of a colored `ApiError` message. -/
theorem C8_cli_error_handling_cex :
    ¬ ("copy-field" ∈ cliCommandNames) ∧
    ¬ ("dynamic-field" ∈ cliCommandNames) ∧
    cliField CFG0 "nonexistent" = .echo (.record []) := by
  exact ⟨by decide, by decide, by decide⟩

/-- Lookup distributes over append, preferring the left dict. -/
theorem lookupStr_append {α : Type} (d e : List (String × α)) (k : String) :
    lookupStr (d ++ e) k =
      match lookupStr d k with
      | some v => some v
      | none => lookupStr e k := by
  induction d with
  | nil => rfl
  | cons p ps ih =>
    by_cases h : p.1 = k <;> simp [lookupStr, h, ih]

/-- `dict.extend` on the looked-up key appends to its current list. -/
theorem lookupStr_dictExtend_same (d : Payload) (k : String) (vs : List SolrRecord) :
    lookupStr (dictExtend d k vs) k = (lookupStr d k).map (fun l => l ++ vs) := by
  induction d with
  | nil => rfl
  | cons p ps ih =>
    by_cases h : p.1 = k
    · simp [dictExtend, lookupStr, h]
    · simp [dictExtend, lookupStr, h]
      simp [dictExtend] at ih
      exact ih

/-- `dict.extend` on a key leaves other keys' lookups unchanged. -/
theorem lookupStr_dictExtend_ne (d : Payload) (k k' : String)
    (vs : List SolrRecord) (h : k' ≠ k) :
    lookupStr (dictExtend d k vs) k' = lookupStr d k' := by
  induction d with
  | nil => rfl
  | cons p ps ih =>
    rcases p with ⟨a, v⟩
    show lookupStr ((if a = k then (a, v ++ vs) else (a, v)) :: dictExtend ps k vs) k' =
      lookupStr ((a, v) :: ps) k'
    by_cases hp : a = k
    · have hk' : a ≠ k' := by rw [hp]; exact fun he => h he.symm
      rw [if_pos hp]
      show (if a = k' then some (v ++ vs) else lookupStr (dictExtend ps k vs) k') =
        (if a = k' then some v else lookupStr ps k')
      rw [if_neg hk', if_neg hk']
      exact ih
    · rw [if_neg hp]
      show (if a = k' then some v else lookupStr (dictExtend ps k vs) k') =
        (if a = k' then some v else lookupStr ps k')
      by_cases hk' : a = k'
      · rw [if_pos hk', if_pos hk']
      · rw [if_neg hk', if_neg hk']
        exact ih

/-- `setdefault` on an absent key appends the empty entry. -/
theorem dictSetdefault_absent (d : Payload) (k : String)
    (h : lookupStr d k = none) : dictSetdefault d k = d ++ [(k, [])] := by
  simp [dictSetdefault, h]

/-- Extending with the empty list changes nothing. -/
theorem dictExtend_nil (d : Payload) (k : String) : dictExtend d k [] = d := by
  induction d with
  | nil => rfl
  | cons p ps ih =>
    show (if p.1 = k then (p.1, p.2 ++ []) else p) :: dictExtend ps k [] = p :: ps
    rw [ih]
    by_cases h : p.1 = k
    · rw [if_pos h]
      simp
    · rw [if_neg h]

/-- The list comprehension equals the spec's filtered name list when every
record carries a `name`. -/
theorem buildNameRecords_spec (fixed : List String) (members : List SolrRecord)
    (h : allNamed members = true) :
    buildNameRecords fixed members =
      .ok ((members.filter (fun r => ¬ (lookupStr r "name").getD "" ∈ fixed)).map
        (fun r => [("name", (lookupStr r "name").getD "")])) := by
  induction members with
  | nil => rfl
  | cons r rs ih =>
    have hr : (lookupStr r "name").isSome := by
      simp [allNamed] at h
      exact h.1
    have hrs : allNamed rs = true := by
      simp [allNamed] at h ⊢
      exact h.2
    cases hn : lookupStr r "name" with
    | none => rw [hn] at hr; simp at hr
    | some n =>
      by_cases hmem : n ∈ fixed <;>
        simp [buildNameRecords, hn, ih hrs, hmem, List.filter]

/-- Normal form of one `clear_schema` loop iteration for a recognized group
whose members are well-formed: set the command's default and extend it with
the spec's delete entries (the empty-members case extends with nothing). -/
theorem clearStep_ok (fixedFields : String → List String) (schema : SolrSchema)
    (data : Payload) (group key : String) (members : List SolrRecord)
    (hk : lookupStr SOLR_GROUP_MAPPING group = some key)
    (hm : schema.get key = .ok members)
    (hnames : group = "copy-field" ∨ allNamed members = true) :
    clearStep fixedFields schema data group =
      .ok (dictExtend (dictSetdefault data ("delete-" ++ group)) ("delete-" ++ group)
        (specDeleteCommandEntries (fixedFields group) group members)) := by
  rcases members with _ | ⟨r, rs⟩
  · have hspec : specDeleteCommandEntries (fixedFields group) group [] = [] := by
      simp [specDeleteCommandEntries]
    rw [hspec, dictExtend_nil]
    simp [clearStep, hk, hm]
  · by_cases hcopy : group = "copy-field"
    · subst hcopy
      simp [clearStep, hk, hm, specDeleteCommandEntries]
    · have hn : allNamed (r :: rs) = true := hnames.resolve_left hcopy
      have hb := buildNameRecords_spec (fixedFields group) (r :: rs) hn
      simp [clearStep, hk, hm, hcopy, hb, specDeleteCommandEntries]

/-- `delete-` command names are injective in the group name. -/
theorem deleteCmdInj (g g' : String) (h : "delete-" ++ g = "delete-" ++ g') :
    g = g' := by
  have hd : ("delete-" ++ g).data = ("delete-" ++ g').data := by rw [h]
  rw [String.data_append, String.data_append] at hd
  have := List.append_cancel_left hd
  rcases g with ⟨gd⟩
  rcases g' with ⟨gd'⟩
  exact congrArg String.mk this

/-- Invariant of the `clear_schema` loop: over recognized, well-formed,
duplicate-free groups whose commands are absent from the initial dict, the
fold succeeds, every requested group's command maps to the spec's delete
entries, and every other key is untouched. -/
theorem clearFold_spec (fixedFields : String → List String) (schema : SolrSchema)
    (groups : List String) :
    ∀ data0 : Payload,
    groups.Nodup →
    (∀ g ∈ groups, ∃ key members, lookupStr SOLR_GROUP_MAPPING g = some key ∧
       schema.get key = .ok members ∧ (g = "copy-field" ∨ allNamed members = true)) →
    (∀ g ∈ groups, lookupStr data0 ("delete-" ++ g) = none) →
    ∃ data, List.foldlM (clearStep fixedFields schema) data0 groups = .ok data ∧
      (∀ g ∈ groups, ∀ key members, lookupStr SOLR_GROUP_MAPPING g = some key →
         schema.get key = .ok members →
         lookupStr data ("delete-" ++ g) =
           some (specDeleteCommandEntries (fixedFields g) g members)) ∧
      (∀ k, (∀ g ∈ groups, k ≠ "delete-" ++ g) →
         lookupStr data k = lookupStr data0 k) := by
  induction groups with
  | nil =>
    intro data0 _ _ _
    exact ⟨data0, rfl, by simp, fun k _ => rfl⟩
  | cons g gs ih =>
    intro data0 hnd hrec habs
    rcases hrec g (by simp) with ⟨key, members, hk, hm, hn⟩
    have hstep := clearStep_ok fixedFields schema data0 g key members hk hm hn
    have habs0 : lookupStr data0 ("delete-" ++ g) = none := habs g (by simp)
    have hlook1 : lookupStr
        (dictExtend (dictSetdefault data0 ("delete-" ++ g)) ("delete-" ++ g)
          (specDeleteCommandEntries (fixedFields g) g members)) ("delete-" ++ g) =
        some (specDeleteCommandEntries (fixedFields g) g members) := by
      rw [lookupStr_dictExtend_same, dictSetdefault_absent data0 _ habs0,
        lookupStr_append, habs0]
      simp [lookupStr]
    have hfr1 : ∀ k, k ≠ "delete-" ++ g →
        lookupStr
          (dictExtend (dictSetdefault data0 ("delete-" ++ g)) ("delete-" ++ g)
            (specDeleteCommandEntries (fixedFields g) g members)) k =
        lookupStr data0 k := by
      intro k hkne
      rw [lookupStr_dictExtend_ne _ _ _ _ hkne,
        dictSetdefault_absent data0 _ habs0, lookupStr_append]
      cases hx : lookupStr data0 k with
      | some v => rfl
      | none =>
        have hne2 : ¬ ("delete-" ++ g) = k := fun hh => hkne hh.symm
        simp [lookupStr, hne2]
    have hnd' : gs.Nodup := (List.nodup_cons.mp hnd).2
    have hgnot : g ∉ gs := (List.nodup_cons.mp hnd).1
    have hrec' : ∀ g' ∈ gs, ∃ key members,
        lookupStr SOLR_GROUP_MAPPING g' = some key ∧
        schema.get key = .ok members ∧
        (g' = "copy-field" ∨ allNamed members = true) :=
      fun g' hg' => hrec g' (List.mem_cons_of_mem _ hg')
    have habs' : ∀ g' ∈ gs, lookupStr
        (dictExtend (dictSetdefault data0 ("delete-" ++ g)) ("delete-" ++ g)
          (specDeleteCommandEntries (fixedFields g) g members))
        ("delete-" ++ g') = none := by
      intro g' hg'
      have hne : ("delete-" ++ g') ≠ ("delete-" ++ g) := by
        intro hh
        exact hgnot (deleteCmdInj g' g hh ▸ hg')
      rw [hfr1 _ hne]
      exact habs g' (List.mem_cons_of_mem _ hg')
    rcases ih _ hnd' hrec' habs' with ⟨data, hfold, hforall, hframe⟩
    refine ⟨data, ?_, ?_, ?_⟩
    · rw [List.foldlM_cons, hstep]
      exact hfold
    · intro g' hg' key' members' hk' hm'
      rcases List.mem_cons.mp hg' with rfl | hg2
      · have hkk : key = key' := by
          rw [hk] at hk'
          exact Option.some.inj hk'
        subst hkk
        have hmm : members = members' := by
          rw [hm] at hm'
          exact Except.ok.inj hm'
        subst hmm
        have hcf : ∀ g2 ∈ gs, ("delete-" ++ g') ≠ "delete-" ++ g2 := by
          intro g2 hg2 hh
          exact hgnot (deleteCmdInj g' g2 hh ▸ hg2)
        rw [hframe _ hcf, hlook1]
      · exact hforall g' hg2 key' members' hk' hm'
    · intro k hkall
      have h1 : ∀ g2 ∈ gs, k ≠ "delete-" ++ g2 :=
        fun g2 hg2 => hkall g2 (List.mem_cons_of_mem _ hg2)
      rw [hframe k h1, hfr1 k (hkall g (by simp))]

/-- The spec's delete entries for an empty group list are empty. -/
theorem specDeleteCommandEntries_nil (fixed : List String) (group : String) :
    specDeleteCommandEntries fixed group [] = [] := by
  simp [specDeleteCommandEntries]

/-- C2: for every duplicate-free set of recognized groups (with the
well-formedness the data model guarantees: every non-copy-field member
carries a `name`), Solr-8 `clear_schema` builds, per group, a
`delete-<group>` command holding the members' names minus the FixedFields
names — the full records for the copy-field group — and issues exactly one
combined POST to the schema endpoint carrying all the delete commands. -/
theorem C2_clear_schema_payload (f : Facade) (fixedFields : String → List String)
    (groups : List String) (resp : HttpResponse SchemaBody) (schema : SolrSchema)
    (hfetch : SolrBaseFacade.get_full_schema f resp = .ok schema)
    (hnd : groups.Nodup)
    (hrec : ∀ g ∈ groups, ∃ key members,
       lookupStr SOLR_GROUP_MAPPING g = some key ∧
       schema.get key = .ok members ∧
       (g = "copy-field" ∨ allNamed members = true)) :
    ∃ data : Payload,
      Solr8Facade.clear_schema f fixedFields groups resp =
        .ok (f, [⟨getUrl f "schema", "GET", []⟩, ⟨getUrl f "schema", "post", data⟩]) ∧
      ([(⟨getUrl f "schema", "GET", []⟩ : HttpRequest),
        ⟨getUrl f "schema", "post", data⟩].filter
          (fun r => r.method == "post")) = [⟨getUrl f "schema", "post", data⟩] ∧
      (∀ g ∈ groups, ∀ key members, lookupStr SOLR_GROUP_MAPPING g = some key →
         schema.get key = .ok members →
         lookupStr data ("delete-" ++ g) =
           some (specDeleteCommandEntries (fixedFields g) g members)) := by
  rcases clearFold_spec fixedFields schema groups [] hnd hrec (fun g _ => rfl)
    with ⟨data, hfold, hforall, _⟩
  refine ⟨data, ?_, rfl, hforall⟩
  simp [Solr8Facade.clear_schema, hfetch, hfold]

/-- Modelled from the spec: a concrete instance of
`const.SOLR_FIXED_FIELDS` protecting the Solr-internal `id` field of the
field group (witness data only). -/
def FF0 : String → List String := fun g => if g = "field" then ["id"] else []

/-- Witness group set: the field and copy-field groups. -/
def GROUPS0 : List String := ["field", "copy-field"]

/-- C2 witness: clearing the field and copy-field groups of the fixture
schema with `id` protected. -/
theorem C2_clear_schema_payload_witness :
    ∃ data : Payload,
      Solr8Facade.clear_schema F0 FF0 GROUPS0 R0 =
        .ok (F0, [⟨getUrl F0 "schema", "GET", []⟩, ⟨getUrl F0 "schema", "post", data⟩]) ∧
      ([(⟨getUrl F0 "schema", "GET", []⟩ : HttpRequest),
        ⟨getUrl F0 "schema", "post", data⟩].filter
          (fun r => r.method == "post")) = [⟨getUrl F0 "schema", "post", data⟩] ∧
      (∀ g ∈ GROUPS0, ∀ key members, lookupStr SOLR_GROUP_MAPPING g = some key →
         SolrSchema.get S0 key = .ok members →
         lookupStr data ("delete-" ++ g) =
           some (specDeleteCommandEntries (FF0 g) g members)) := by
  apply C2_clear_schema_payload F0 FF0 GROUPS0 R0 S0 (by decide) (by decide)
  intro g hg
  have hg2 : g = "field" ∨ g = "copy-field" := by
    simpa [GROUPS0] using hg
  rcases hg2 with rfl | rfl
  · exact ⟨"fields", S0.fields, by decide, by decide, Or.inr (by decide)⟩
  · exact ⟨"copyFields", S0.copyFields, by decide, by decide, Or.inl rfl⟩

/-- C6: under the same conditions as the payload theorem, a requested group
whose fetched list is empty contributes an empty delete-entry list to the
single combined POST payload. -/
theorem C6_clear_empty_group (f : Facade) (fixedFields : String → List String)
    (groups : List String) (resp : HttpResponse SchemaBody) (schema : SolrSchema)
    (g key : String)
    (hfetch : SolrBaseFacade.get_full_schema f resp = .ok schema)
    (hnd : groups.Nodup)
    (hrec : ∀ g' ∈ groups, ∃ key' members,
       lookupStr SOLR_GROUP_MAPPING g' = some key' ∧
       schema.get key' = .ok members ∧
       (g' = "copy-field" ∨ allNamed members = true))
    (hg : g ∈ groups)
    (hk : lookupStr SOLR_GROUP_MAPPING g = some key)
    (hempty : schema.get key = .ok []) :
    ∃ data : Payload,
      Solr8Facade.clear_schema f fixedFields groups resp =
        .ok (f, [⟨getUrl f "schema", "GET", []⟩, ⟨getUrl f "schema", "post", data⟩]) ∧
      lookupStr data ("delete-" ++ g) = some [] := by
  rcases clearFold_spec fixedFields schema groups [] hnd hrec (fun g' _ => rfl)
    with ⟨data, hfold, hforall, _⟩
  refine ⟨data, ?_, ?_⟩
  · simp [Solr8Facade.clear_schema, hfetch, hfold]
  · rw [hforall g hg key [] hk hempty, specDeleteCommandEntries_nil]

/-- Witness group set: the (empty) dynamic-field group alone. -/
def GROUPS1 : List String := ["dynamic-field"]

/-- C6 witness: clearing the fixture's empty dynamic-field group produces
an empty delete-entry list for it. -/
theorem C6_clear_empty_group_witness :
    ∃ data : Payload,
      Solr8Facade.clear_schema F0 FF0 GROUPS1 R0 =
        .ok (F0, [⟨getUrl F0 "schema", "GET", []⟩, ⟨getUrl F0 "schema", "post", data⟩]) ∧
      lookupStr data ("delete-" ++ "dynamic-field") = some [] := by
  apply C6_clear_empty_group F0 FF0 GROUPS1 R0 S0 "dynamic-field" "dynamicFields"
    (by decide) (by decide) ?_ (by decide) (by decide) (by decide)
  intro g' hg'
  have hg2 : g' = "dynamic-field" := by
    simpa [GROUPS1] using hg'
  subst hg2
  exact ⟨"dynamicFields", S0.dynamicFields, by decide, by decide, Or.inr (by decide)⟩

/-- `splitFirst` finds the first occurrence. -/
theorem splitFirst_append (c : Char) (pre post : List Char) (h : c ∉ pre) :
    splitFirst c (pre ++ c :: post) = some (pre, post) := by
  induction pre with
  | nil => simp [splitFirst]
  | cons a t ih =>
    have ha : ¬ a = c := fun he => h (he ▸ List.mem_cons_self a t)
    have ht : c ∉ t := fun hm => h (List.mem_cons_of_mem a hm)
    simp [splitFirst, ha, ih ht]

/-- `takeWhile (· ≠ '/')` stops exactly at the first slash. -/
theorem takeWhileNe_append (n r : List Char) (h : '/' ∉ n) :
    (n ++ '/' :: r).takeWhile (fun a => a ≠ '/') = n := by
  induction n with
  | nil => simp [List.takeWhile]
  | cons a t ih =>
    have ha : ¬ a = '/' := fun he => h (he ▸ List.mem_cons_self a t)
    have ht : '/' ∉ t := fun hm => h (List.mem_cons_of_mem a hm)
    simp only [List.cons_append, List.takeWhile_cons]
    simp [ha]
    simpa using ih ht

/-- `dropWhile (· ≠ '/')` drops exactly up to the first slash. -/
theorem dropWhileNe_append (n r : List Char) (h : '/' ∉ n) :
    (n ++ '/' :: r).dropWhile (fun a => a ≠ '/') = '/' :: r := by
  induction n with
  | nil => simp [List.dropWhile]
  | cons a t ih =>
    have ha : ¬ a = '/' := fun he => h (he ▸ List.mem_cons_self a t)
    have ht : '/' ∉ t := fun hm => h (List.mem_cons_of_mem a hm)
    simp only [List.cons_append, List.dropWhile_cons]
    simp [ha]
    simpa using ih ht

/-- `urlparse` on a well-formed absolute URL splits into scheme, netloc and
path. -/
theorem urlparse_wellformed (scheme netloc path : String)
    (hs : ':' ∉ scheme.data) (hn : '/' ∉ netloc.data)
    (hp : ∃ p', path.data = '/' :: p') :
    urlparse (scheme ++ "://" ++ netloc ++ path) = ⟨scheme, netloc, path⟩ := by
  rcases hp with ⟨p', hp'⟩
  have hdata : (scheme ++ "://" ++ netloc ++ path).toList =
      scheme.data ++ ':' :: ('/' :: '/' :: (netloc.data ++ ('/' :: p'))) := by
    show (scheme ++ "://" ++ netloc ++ path).data = _
    rw [String.data_append, String.data_append, String.data_append, hp',
      show ("://" : String).data = [':', '/', '/'] from rfl]
    simp
  rw [urlparse, hdata, splitFirst_append ':' scheme.data _ hs]
  have htw := takeWhileNe_append netloc.data p' hn
  have hdw := dropWhileNe_append netloc.data p' hn
  simp only [htw, hdw]
  rw [← hp']

/-- The right-stripping half of Python `strip("/")`. -/
def stripSlashRight (l : List Char) : List Char :=
  (l.reverse.dropWhile (fun a => a = '/')).reverse

/-- `strip("/")` is dropping leading slashes then trailing slashes. -/
theorem pyStripSlash_eq (l : List Char) :
    pyStripSlash l = stripSlashRight (dropSlashes l) := rfl

/-- A list whose head is not a slash is untouched by `dropWhile (= '/')`. -/
theorem dropWhileSlash_of_head (b : Char) (t : List Char) (hb : ¬ b = '/') :
    (b :: t).dropWhile (fun a => a = '/') = b :: t := by
  simp [List.dropWhile_cons, hb]

/-- Trailing-slash stripping passes over a block that ends in a non-slash
character. -/
theorem stripSlashRight_sandwich (P C R : List Char) (hC : C ≠ [])
    (hCs : '/' ∉ C) :
    stripSlashRight (P ++ C ++ R) = P ++ C ++ stripSlashRight R := by
  have hCrev : ∃ b t, C.reverse = b :: t ∧ ¬ b = '/' := by
    rcases hrev : C.reverse with _ | ⟨b, t⟩
    · exact absurd (List.reverse_eq_nil_iff.mp hrev) hC
    · refine ⟨b, t, rfl, ?_⟩
      intro he
      apply hCs
      have hmem : b ∈ C.reverse := by rw [hrev]; exact List.mem_cons_self b t
      rw [he] at hmem
      exact List.mem_reverse.mp hmem
  rcases hCrev with ⟨b, t, hrev, hb⟩
  have hmid : (C.reverse ++ P.reverse).dropWhile (fun a => a = '/') =
      C.reverse ++ P.reverse := by
    rw [hrev, List.cons_append, List.dropWhile_cons]
    simp [hb]
  unfold stripSlashRight
  rw [List.reverse_append, List.reverse_append, List.dropWhile_append, hmid]
  by_cases hemp : (R.reverse.dropWhile (fun a => a = '/')).isEmpty
  · rw [if_pos hemp]
    rw [List.isEmpty_iff] at hemp
    rw [hemp]
    simp
  · rw [if_neg hemp]
    simp [List.append_assoc]

/-- Right-stripping yields a prefix of the original list. -/
theorem stripSlashRight_leading (l : List Char) :
    ∃ suf, l = stripSlashRight l ++ suf := by
  refine ⟨(l.reverse.takeWhile (fun a => a = '/')).reverse, ?_⟩
  unfold stripSlashRight
  have h := List.takeWhile_append_dropWhile (p := fun a => decide (a = '/')) (l := l.reverse)
  calc l = l.reverse.reverse := by rw [List.reverse_reverse]
  _ = (l.reverse.takeWhile (fun a => a = '/') ++
        l.reverse.dropWhile (fun a => a = '/')).reverse := by rw [h]
  _ = (l.reverse.dropWhile (fun a => a = '/')).reverse ++
        (l.reverse.takeWhile (fun a => a = '/')).reverse := by rw [List.reverse_append]

/-- `split("/")` separates at the first slash. -/
theorem pySplit_append (pre post : List Char) (h : '/' ∉ pre) :
    pySplit '/' (pre ++ '/' :: post) = pre :: pySplit '/' post := by
  induction pre with
  | nil => simp [pySplit]
  | cons a t ih =>
    have ha : ¬ a = '/' := fun he => h (he ▸ List.mem_cons_self a t)
    have ht : '/' ∉ t := fun hm => h (List.mem_cons_of_mem a hm)
    simp [pySplit, ha, ih ht]

/-- `split("/")` of a slash-free list is that list alone. -/
theorem pySplit_no_sep (l : List Char) (h : '/' ∉ l) :
    pySplit '/' l = [l] := by
  induction l with
  | nil => rfl
  | cons a t ih =>
    have ha : ¬ a = '/' := fun he => h (he ▸ List.mem_cons_self a t)
    have ht : '/' ∉ t := fun hm => h (List.mem_cons_of_mem a hm)
    simp [pySplit, ha, ih ht]

/-- The second segment of `path.strip("/").split("/")` for a path of the
form `/solr/<collection><rest>` is the collection. -/
theorem collection_second_segment (coll rest : List Char)
    (hc1 : coll ≠ []) (hc2 : '/' ∉ coll)
    (hr : rest = [] ∨ ∃ r', rest = '/' :: r') :
    listGet1 (pySplit '/'
      (pyStripSlash ('/' :: 's' :: 'o' :: 'l' :: 'r' :: '/' :: (coll ++ rest)))) =
      .ok coll := by
  have hdrop : dropSlashes ('/' :: 's' :: 'o' :: 'l' :: 'r' :: '/' :: (coll ++ rest)) =
      's' :: 'o' :: 'l' :: 'r' :: '/' :: (coll ++ rest) := by
    simp [dropSlashes, List.dropWhile]
  have hsand : stripSlashRight (['s', 'o', 'l', 'r', '/'] ++ coll ++ rest) =
      ['s', 'o', 'l', 'r', '/'] ++ coll ++ stripSlashRight rest :=
    stripSlashRight_sandwich ['s', 'o', 'l', 'r', '/'] coll rest hc1 hc2
  have hshape : 's' :: 'o' :: 'l' :: 'r' :: '/' :: (coll ++ rest) =
      ['s', 'o', 'l', 'r', '/'] ++ coll ++ rest := by
    simp
  rw [pyStripSlash_eq, hdrop, hshape, hsand]
  have hsolr : ('/' : Char) ∉ ['s', 'o', 'l', 'r'] := by decide
  have hS : stripSlashRight rest = [] ∨
      ∃ t', stripSlashRight rest = '/' :: t' := by
    rcases hr with rfl | ⟨r', rfl⟩
    · exact Or.inl rfl
    · rcases hx : stripSlashRight ('/' :: r') with _ | ⟨b, t⟩
      · exact Or.inl rfl
      · rcases stripSlashRight_leading ('/' :: r') with ⟨suf, hsuf⟩
        rw [hx] at hsuf
        have hb : b = '/' := (List.cons.inj hsuf.symm).1
        exact Or.inr ⟨t, by rw [hb]⟩
  have hform : ['s', 'o', 'l', 'r', '/'] ++ coll ++ stripSlashRight rest =
      ['s', 'o', 'l', 'r'] ++ '/' :: (coll ++ stripSlashRight rest) := by
    simp
  rw [hform, pySplit_append ['s', 'o', 'l', 'r'] _ hsolr]
  rcases hS with hS0 | ⟨t', hS1⟩
  · rw [hS0]
    rw [List.append_nil, pySplit_no_sep coll hc2]
    rfl
  · rw [hS1, pySplit_append coll t' hc2]
    rfl

/-- Appending to a non-empty string stays non-empty. -/
theorem strAppend_ne_empty (a b : String) (h : a ≠ "") : a ++ b ≠ "" := by
  intro he
  apply h
  have hd : (a ++ b).data = [] := by rw [he]
  rw [String.data_append] at hd
  rcases List.append_eq_nil.mp hd with ⟨h1, _⟩
  rcases a with ⟨ad⟩
  simpa using congrArg String.mk h1

/-- `urlunparse` with only scheme and netloc yields `scheme://netloc`. -/
theorem urlunparse6_base (scheme netloc : String) (hs : scheme ≠ "")
    (hn : netloc ≠ "") :
    urlunparse6 scheme netloc "" = scheme ++ "://" ++ netloc := by
  apply String.ext
  simp [urlunparse6, hs, hn, String.data_append,
    show (":" : String).data = [':'] from rfl,
    show ("//" : String).data = ['/', '/'] from rfl,
    show ("://" : String).data = [':', '/', '/'] from rfl]

/-- C3: constructing the facade from a URL of the form
`scheme://netloc/solr/<collection><rest>` yields `base_url = scheme://netloc`
(scheme, host and port only) and `collection` equal to the second path
segment. -/
theorem C3_url_resolution (scheme netloc coll rest : String)
    (hs1 : scheme ≠ "") (hs2 : ':' ∉ scheme.data)
    (hn1 : netloc ≠ "") (hn2 : '/' ∉ netloc.data)
    (hc1 : coll ≠ "") (hc2 : '/' ∉ coll.data)
    (hr : rest = "" ∨ ∃ r', rest.data = '/' :: r') :
    SolrBaseFacade.init
      (some (scheme ++ "://" ++ netloc ++ ("/solr/" ++ coll ++ rest))) none none =
      .ok ⟨scheme ++ "://" ++ netloc ++ ("/solr/" ++ coll ++ rest),
        scheme ++ "://" ++ netloc, coll⟩ := by
  have hpdata : ("/solr/" ++ coll ++ rest).data =
      '/' :: 's' :: 'o' :: 'l' :: 'r' :: '/' :: (coll.data ++ rest.data) := by
    rw [String.data_append, String.data_append,
      show ("/solr/" : String).data = ['/', 's', 'o', 'l', 'r', '/'] from rfl]
    simp
  have hup := urlparse_wellformed scheme netloc ("/solr/" ++ coll ++ rest) hs2 hn2
    ⟨_, hpdata⟩
  have hune : (scheme ++ "://" ++ netloc ++ ("/solr/" ++ coll ++ rest)) ≠ "" :=
    strAppend_ne_empty _ _ (strAppend_ne_empty _ _ (strAppend_ne_empty _ _ hs1))
  have hbase : getBaseUrlFromConfig
      (scheme ++ "://" ++ netloc ++ ("/solr/" ++ coll ++ rest)) =
      scheme ++ "://" ++ netloc := by
    unfold getBaseUrlFromConfig
    rw [hup]
    exact urlunparse6_base scheme netloc hs1 hn1
  have hc1' : coll.data ≠ [] := by
    intro hd
    apply hc1
    rcases coll with ⟨cd⟩
    simpa using congrArg String.mk hd
  have hr' : rest.data = [] ∨ ∃ r', rest.data = '/' :: r' := by
    rcases hr with rfl | h
    · exact Or.inl rfl
    · exact Or.inr h
  have hcoll : getCollectionFromConfig SolrError.configError
      (scheme ++ "://" ++ netloc ++ ("/solr/" ++ coll ++ rest)) = .ok coll := by
    unfold getCollectionFromConfig
    rw [hup]
    have htl : ("/solr/" ++ coll ++ rest).toList =
        '/' :: 's' :: 'o' :: 'l' :: 'r' :: '/' :: (coll.data ++ rest.data) := hpdata
    dsimp only
    rw [htl, collection_second_segment coll.data rest.data hc1' hc2 hr']
    simp [hc1]
  show facadeInit .configError _ none none = _
  have hfalsy : pyFalsy (some (scheme ++ "://" ++ netloc ++ ("/solr/" ++ coll ++ rest))) =
      false := by
    simp [pyFalsy, hune]
  simp [facadeInit, hfalsy, pyOrStr, hbase, hcoll]

/-- C3 witness: the standard CKAN Solr URL resolves to the expected
base URL / collection pair. -/
theorem C3_url_resolution_witness :
    SolrBaseFacade.init (some "http://127.0.0.1:8983/solr/ckan") none none =
      .ok ⟨"http://127.0.0.1:8983/solr/ckan", "http://127.0.0.1:8983", "ckan"⟩ := by
  have h := C3_url_resolution "http" "127.0.0.1:8983" "ckan" ""
    (by decide) (by decide) (by decide) (by decide) (by decide) (by decide)
    (Or.inl rfl)
  have e1 : "http" ++ "://" ++ "127.0.0.1:8983" ++ ("/solr/" ++ "ckan" ++ "") =
      "http://127.0.0.1:8983/solr/ckan" := by decide
  have e2 : "http" ++ "://" ++ "127.0.0.1:8983" = "http://127.0.0.1:8983" := by decide
  rw [e1, e2] at h
  exact h

/-- C4 (amended): construction fails with `SolrConfigError` in exactly two
cases — a missing/empty URL option, and a URL whose stripped path has a
second segment that is empty; when the stripped path has fewer than two
segments (no collection segment at all) construction instead fails with an
`IndexError` from `split("/")[1]`; in every failure case no facade value is
produced, and otherwise the facade is built from the second segment. -/
theorem C4_init_errors (cfg : Option String) :
    (pyFalsy cfg = true →
       SolrBaseFacade.init cfg none none =
         .error (.configError "The solr_url is missing from configuration")) ∧
    (∀ u, cfg = some u → pyFalsy cfg = false →
       (∀ a, pySplit '/' (pyStripSlash (urlparse u).path.data) = [a] →
          SolrBaseFacade.init cfg none none = .error .indexError) ∧
       (∀ a b tl, pySplit '/' (pyStripSlash (urlparse u).path.data) = a :: b :: tl →
          (b = [] → SolrBaseFacade.init cfg none none =
             .error (.configError "The solr_url doesn't contain collection")) ∧
          (b ≠ [] → SolrBaseFacade.init cfg none none =
             .ok ⟨u, getBaseUrlFromConfig u, String.mk b⟩))) := by
  refine ⟨?_, ?_⟩
  · intro h
    simp [SolrBaseFacade.init, facadeInit, h]
  · rintro u rfl hf
    refine ⟨?_, ?_⟩
    · intro a ha
      simp [SolrBaseFacade.init, facadeInit, hf, pyOrStr,
        getCollectionFromConfig, ha, listGet1]
    · intro a b tl h2
      refine ⟨?_, ?_⟩
      · intro hb
        subst hb
        simp [SolrBaseFacade.init, facadeInit, hf, pyOrStr,
          getCollectionFromConfig, h2, listGet1, String.ext_iff]
      · intro hb
        simp [SolrBaseFacade.init, facadeInit, hf, pyOrStr,
          getCollectionFromConfig, h2, listGet1, String.ext_iff, hb]

/-- C4 counterexample: for a URL with no collection segment the construction
fails with a raw `IndexError`, not the `SolrConfigError` the claim
requires. -/
theorem C4_init_errors_cex :
    SolrBaseFacade.init (some "http://localhost:8983/solr") none none =
      .error .indexError ∧
    isConfigErrorResult
      (SolrBaseFacade.init (some "http://localhost:8983/solr") none none) = false := by
  exact ⟨by decide, by decide⟩

/-- C4 witness: the missing-option case raises the configuration error. -/
theorem C4_init_errors_witness :
    SolrBaseFacade.init none none none =
      .error (.configError "The solr_url is missing from configuration") :=
  (C4_init_errors none).1 rfl
